import Mathlib

/-!
Verification of the real-time streaming data pipeline of this repository:
the indicator engine (`DataCalculator` in frontend/live/js/data-storage.js),
the bounded series buffers (`ChartsManager` / `GridController`), the
WebSocket connection manager (`WebSocketManager`), and the pipeline
coordinators (`Application.handleRealtimeData`,
`GridController.updateChartsData`).

JavaScript numbers are modelled by `JSVal`: a finite rational, `NaN`,
`Infinity`, `-Infinity`, or `null` (the warm-up marker the indicator code
pushes into its output arrays).  Arithmetic follows the JavaScript
semantics of the operators used by the source: `null` coerces to 0,
`NaN` propagates, division by zero produces `NaN` or a signed infinity.
-/

/-- A JavaScript value as it occurs in the indicator arrays: `null`,
a finite number (modelled exactly as a rational), `NaN`, or a signed
infinity. -/
inductive JSVal where
  | null : JSVal
  | fin : ℚ → JSVal
  | nan : JSVal
  | inf : JSVal
  | ninf : JSVal
deriving DecidableEq

/-- `ToNumber` coercion as applied by JavaScript arithmetic operators to
the values above: `null` becomes 0, everything else is already a number. -/
def JSVal.toNum : JSVal → JSVal
  | JSVal.null => JSVal.fin 0
  | v => v

/-- JavaScript `+` on numbers. -/
def jsAdd (a b : JSVal) : JSVal :=
  match a.toNum, b.toNum with
  | JSVal.nan, _ => JSVal.nan
  | _, JSVal.nan => JSVal.nan
  | JSVal.fin x, JSVal.fin y => JSVal.fin (x + y)
  | JSVal.inf, JSVal.inf => JSVal.inf
  | JSVal.inf, JSVal.ninf => JSVal.nan
  | JSVal.ninf, JSVal.inf => JSVal.nan
  | JSVal.ninf, JSVal.ninf => JSVal.ninf
  | JSVal.inf, _ => JSVal.inf
  | _, JSVal.inf => JSVal.inf
  | JSVal.ninf, _ => JSVal.ninf
  | _, JSVal.ninf => JSVal.ninf
  | v, _ => v

/-- JavaScript unary minus on numbers. -/
def jsNeg (a : JSVal) : JSVal :=
  match a.toNum with
  | JSVal.fin x => JSVal.fin (-x)
  | JSVal.inf => JSVal.ninf
  | JSVal.ninf => JSVal.inf
  | v => v

/-- JavaScript binary `-`, which agrees with `a + (-b)` on numbers. -/
def jsSub (a b : JSVal) : JSVal := jsAdd a (jsNeg b)

/-- JavaScript `*` on numbers (zero times an infinity is `NaN`). -/
def jsMul (a b : JSVal) : JSVal :=
  match a.toNum, b.toNum with
  | JSVal.nan, _ => JSVal.nan
  | _, JSVal.nan => JSVal.nan
  | JSVal.fin x, JSVal.fin y => JSVal.fin (x * y)
  | JSVal.inf, JSVal.fin y =>
      if y = 0 then JSVal.nan else if 0 < y then JSVal.inf else JSVal.ninf
  | JSVal.fin x, JSVal.inf =>
      if x = 0 then JSVal.nan else if 0 < x then JSVal.inf else JSVal.ninf
  | JSVal.ninf, JSVal.fin y =>
      if y = 0 then JSVal.nan else if 0 < y then JSVal.ninf else JSVal.inf
  | JSVal.fin x, JSVal.ninf =>
      if x = 0 then JSVal.nan else if 0 < x then JSVal.ninf else JSVal.inf
  | JSVal.inf, JSVal.inf => JSVal.inf
  | JSVal.inf, JSVal.ninf => JSVal.ninf
  | JSVal.ninf, JSVal.inf => JSVal.ninf
  | JSVal.ninf, JSVal.ninf => JSVal.inf
  | v, _ => v

/-- JavaScript `/` on numbers: `0/0 = NaN`, a nonzero finite numerator over
zero gives a signed infinity. -/
def jsDiv (a b : JSVal) : JSVal :=
  match a.toNum, b.toNum with
  | JSVal.nan, _ => JSVal.nan
  | _, JSVal.nan => JSVal.nan
  | JSVal.fin x, JSVal.fin y =>
      if y = 0 then
        (if x = 0 then JSVal.nan else if 0 < x then JSVal.inf else JSVal.ninf)
      else JSVal.fin (x / y)
  | JSVal.inf, JSVal.fin y => if 0 ≤ y then JSVal.inf else JSVal.ninf
  | JSVal.ninf, JSVal.fin y => if 0 ≤ y then JSVal.ninf else JSVal.inf
  | JSVal.fin _, JSVal.inf => JSVal.fin 0
  | JSVal.fin _, JSVal.ninf => JSVal.fin 0
  | JSVal.inf, JSVal.inf => JSVal.nan
  | JSVal.inf, JSVal.ninf => JSVal.nan
  | JSVal.ninf, JSVal.inf => JSVal.nan
  | JSVal.ninf, JSVal.ninf => JSVal.nan
  | v, _ => v

/-- JavaScript truthiness for the values above: `null`, `0` and `NaN` are
falsy, every other number (infinities included) is truthy. -/
def JSVal.truthy : JSVal → Bool
  | JSVal.null => false
  | JSVal.fin q => if q = 0 then false else true
  | JSVal.nan => false
  | JSVal.inf => true
  | JSVal.ninf => true

/-- The `x || 50` coalescing used by `calculateKDJ` for the previous K and
D values: a falsy value (null, 0, NaN) is replaced by 50. -/
def jsOr50 (v : JSVal) : JSVal := if v.truthy then v else JSVal.fin 50

/-- Binary maximum on rationals, written so that it evaluates in the
kernel. -/
def qmax (a b : ℚ) : ℚ := if a ≤ b then b else a

/-- Binary minimum on rationals, written so that it evaluates in the
kernel. -/
def qmin (a b : ℚ) : ℚ := if b ≤ a then b else a

/-- `Math.max(...l)` on finite numbers; the empty spread yields
`-Infinity`. -/
def jsMaxList (l : List ℚ) : JSVal :=
  match l with
  | [] => JSVal.ninf
  | h :: t => JSVal.fin (t.foldl qmax h)

/-- `Math.min(...l)` on finite numbers; the empty spread yields
`Infinity`. -/
def jsMinList (l : List ℚ) : JSVal :=
  match l with
  | [] => JSVal.inf
  | h :: t => JSVal.fin (t.foldl qmin h)

/-!
## Indicator engine (`DataCalculator`, src/frontend/live/js/data-storage.js)
-/

/-- The `price !== null` predicate used by `calculateEMA` in `find` and
by `calculateMACD` in `filter`. -/
def notNull : JSVal → Bool
  | JSVal.null => false
  | _ => true

/-- Loop body of `DataCalculator.calculateEMA` after the first index:
a `null` price is copied to the output, otherwise the running `ema`
variable is updated with `price * multiplier + ema * (1 - multiplier)`
and pushed. -/
def emaAux (m : ℚ) : List JSVal → JSVal → List JSVal
  | [], _ => []
  | JSVal.null :: rest, ema => JSVal.null :: emaAux m rest ema
  | v :: rest, ema =>
      jsAdd (jsMul v (JSVal.fin m)) (jsMul ema (JSVal.fin (1 - m))) ::
        emaAux m rest (jsAdd (jsMul v (JSVal.fin m)) (jsMul ema (JSVal.fin (1 - m))))

/-- `DataCalculator.calculateEMA(prices, period)`: multiplier
`2 / (period + 1)`; the `ema` variable is initialised with the first
non-null price (`prices.find(p => p !== null)`); the first pushed value
seeds the output with `prices[0]` when it is non-null. -/
def calculateEMA (prices : List JSVal) (period : ℕ) : List JSVal :=
  match prices with
  | [] => []
  | JSVal.null :: rest =>
      JSVal.null :: emaAux (2 / ((period : ℚ) + 1)) rest
        ((prices.find? notNull).getD JSVal.nan)
  | v :: rest => v :: emaAux (2 / ((period : ℚ) + 1)) rest v

/-- The pure rational recurrence performed by `calculateEMA` on numeric
input after the seed: each output is `x * m + prev * (1 - m)`.  Used to
factor the fixed-point reasoning about `emaAux`. -/
def emaScan (m : ℚ) : List ℚ → ℚ → List ℚ
  | [], _ => []
  | x :: rest, prev =>
      (x * m + prev * (1 - m)) :: emaScan m rest (x * m + prev * (1 - m))

/-- Index-aware map used to embed `Array.prototype.map((value, index) => ...)`. -/
def mapIdx2 (f : ℕ → JSVal → JSVal) : ℕ → List JSVal → List JSVal
  | _, [] => []
  | i, v :: rest => f i v :: mapIdx2 f (i + 1) rest

/-- One element of the `dif` array of `calculateMACD`:
`value !== null && ema26[index] !== null ? value - ema26[index] : null`.
An out-of-range read (`undefined` in JavaScript) passes the `!== null`
test and coerces to `NaN` in the subtraction. -/
def difAt (e26 : List JSVal) (i : ℕ) (v : JSVal) : JSVal :=
  if v = JSVal.null then JSVal.null
  else
    match e26.get? i with
    | some JSVal.null => JSVal.null
    | some w => jsSub v w
    | none => jsSub v JSVal.nan

/-- One element of the `macd` array of `calculateMACD`:
`difValue !== null && dea[index] !== null ? 2 * (difValue - dea[index]) : null`,
with the same `undefined`-passes-the-test behaviour for out-of-range
reads of `dea`. -/
def macdAt (dea : List JSVal) (i : ℕ) (dv : JSVal) : JSVal :=
  if dv = JSVal.null then JSVal.null
  else
    match dea.get? i with
    | some JSVal.null => JSVal.null
    | some w => jsMul (JSVal.fin 2) (jsSub dv w)
    | none => jsMul (JSVal.fin 2) (jsSub dv JSVal.nan)

/-- Result record of `calculateMACD`. -/
structure MACDResult where
  dif : List JSVal
  dea : List JSVal
  macd : List JSVal
deriving DecidableEq

/-- `DataCalculator.calculateMACD(prices, fastPeriod, slowPeriod,
signalPeriod)`: `dif = ema(fast) - ema(slow)` pointwise, `dea` is the EMA
of the null-filtered `dif`, and `macd = 2 * (dif - dea)` pointwise. -/
def calculateMACD (prices : List JSVal) (fastPeriod slowPeriod signalPeriod : ℕ) :
    MACDResult :=
  let ema12 := calculateEMA prices fastPeriod
  let ema26 := calculateEMA prices slowPeriod
  let dif := mapIdx2 (difAt ema26) 0 ema12
  let dea := calculateEMA (dif.filter notNull) signalPeriod
  let macd := mapIdx2 (macdAt dea) 0 dif
  ⟨dif, dea, macd⟩

/-- Result record of `calculateKDJ`. -/
structure KDJResult where
  k : List JSVal
  d : List JSVal
  j : List JSVal
  rsv : List JSVal
deriving DecidableEq

/-- The RSV computed by `calculateKDJ` at index `i`:
`((close - Math.min(...lows window)) / (Math.max(...highs window) -
Math.min(...lows window))) * 100`, the window being
`slice(i - period + 1, i + 1)`.  There is no division-by-zero guard in
the source. -/
def kdjStepRSV (highs lows : List ℚ) (period i : ℕ) (c : ℚ) : JSVal :=
  jsMul
    (jsDiv (jsSub (JSVal.fin c) (jsMinList ((lows.drop (i + 1 - period)).take period)))
      (jsSub (jsMaxList ((highs.drop (i + 1 - period)).take period))
        (jsMinList ((lows.drop (i + 1 - period)).take period))))
    (JSVal.fin 100)

/-- Main loop of `DataCalculator.calculateKDJ`, carrying the previously
pushed K and D values (`k[i-1]`, `d[i-1]`; `JSVal.null` before any push,
matching the falsiness of both `null` and an out-of-range `undefined`
under the `|| 50` coalescing). -/
def kdjAux (highs lows : List ℚ) (period : ℕ) :
    List ℚ → ℕ → JSVal → JSVal → KDJResult
  | [], _, _, _ => ⟨[], [], [], []⟩
  | c :: rest, i, pK, pD =>
    if i + 1 < period then
      let r := kdjAux highs lows period rest (i + 1) JSVal.null JSVal.null
      ⟨JSVal.null :: r.k, JSVal.null :: r.d, JSVal.null :: r.j, JSVal.null :: r.rsv⟩
    else
      let rsvV := kdjStepRSV highs lows period i c
      let kV := jsDiv (jsAdd (jsMul (JSVal.fin 2) (jsOr50 pK)) rsvV) (JSVal.fin 3)
      let dV := jsDiv (jsAdd (jsMul (JSVal.fin 2) (jsOr50 pD)) kV) (JSVal.fin 3)
      let jV := jsSub (jsMul (JSVal.fin 3) kV) (jsMul (JSVal.fin 2) dV)
      let r := kdjAux highs lows period rest (i + 1) kV dV
      ⟨kV :: r.k, dV :: r.d, jV :: r.j, rsvV :: r.rsv⟩

/-- `DataCalculator.calculateKDJ(highs, lows, closes, period)`. -/
def calculateKDJ (highs lows closes : List ℚ) (period : ℕ) : KDJResult :=
  kdjAux highs lows period closes 0 JSVal.null JSVal.null

/-!
## Streaming buffer (`ChartsManager.updatePPIEData` in src/unnamed/part_001
and `GridController.limitDataBuffer` in
src/frontend/backtest/js/dual_grid_controller.js)
-/

/-- The trim applied after a push:
`if (buf.length > maxPoints) buf = buf.slice(-maxPoints)`.
`slice(-0)` returns the whole array, so a capacity of 0 does not trim. -/
def limitOne {α : Type} (buf : List α) (maxPts : ℕ) : List α :=
  if maxPts < buf.length then
    (if maxPts = 0 then buf else buf.drop (buf.length - maxPts))
  else buf

/-- One buffer update of `ChartsManager.updatePPIEData` for a single
series: `push(...value)` followed by the `slice(-maxDataPoints)` trim. -/
def appendLimited {α : Type} (buf newPts : List α) (maxPts : ℕ) : List α :=
  limitOne (buf ++ newPts) maxPts

/-!
## Connection manager (`WebSocketManager`, src/unnamed/part_002)
-/

/-- The argument of `updateConnectionStatus` at each transition of
`WebSocketManager`. -/
inductive ConnStatus where
  | connected : ConnStatus
  | disconnected : ConnStatus
  | connecting : ConnStatus
  | reconnecting : ConnStatus
  | failed : ConnStatus
  | error : ConnStatus
deriving DecidableEq

/-- The mutable fields of `WebSocketManager` that drive the retry state
machine. -/
structure WSState where
  isConnected : Bool
  isConnecting : Bool
  reconnectAttempts : ℕ
  maxReconnectAttempts : ℕ
  reconnectDelay : ℕ
  maxReconnectDelay : ℕ
  status : ConnStatus
deriving DecidableEq

/-- The constructor defaults of `WebSocketManager`: 10 attempts, base
delay 1000 ms, maximum delay 30000 ms. -/
def defaultWSState : WSState :=
  ⟨false, false, 0, 10, 1000, 30000, ConnStatus.disconnected⟩

/-- `WebSocketManager.scheduleReconnect`: when the attempt budget is
exhausted the status becomes `failed` and nothing is scheduled; otherwise
the counter is incremented and a timer of
`min(reconnectDelay * 2^(attempts-1), maxReconnectDelay)` is scheduled
(returned as `some delay`). -/
def scheduleReconnect (s : WSState) : WSState × Option ℕ :=
  if s.maxReconnectAttempts ≤ s.reconnectAttempts then
    ({ s with status := ConnStatus.failed }, none)
  else
    ({ s with reconnectAttempts := s.reconnectAttempts + 1,
              status := ConnStatus.reconnecting },
      some (min (s.reconnectDelay * 2 ^ s.reconnectAttempts) s.maxReconnectDelay))

/-- `WebSocketManager.connect`: a no-op when already connected or
connecting; otherwise it marks the manager as connecting and asks the
transport to connect.  It does not touch `reconnectAttempts`. -/
def wsConnect (s : WSState) : WSState :=
  if s.isConnected || s.isConnecting then s
  else { s with isConnecting := true, status := ConnStatus.connecting }

/-- The `socket connect event` success handler: records the connection
and resets `reconnectAttempts` to 0. -/
def onConnectSuccess (s : WSState) : WSState :=
  { s with isConnected := true, isConnecting := false, reconnectAttempts := 0,
           status := ConnStatus.connected }

/-- The `socket connect-failure event` handler: clears `isConnecting`,
reports the `error` status, then calls `scheduleReconnect`. -/
def onConnectError (s : WSState) : WSState × Option ℕ :=
  scheduleReconnect { s with isConnecting := false, status := ConnStatus.error }

/-!
## Packet validation (`WebSocketManager.validateRealtimeData` /
`handleRealtimeData`, src/unnamed/part_002)
-/

/-- A JSON field as inspected by the validation code: a number, a string,
or absent. -/
inductive JField where
  | num : ℚ → JField
  | str : String → JField
  | missing : JField
deriving DecidableEq

/-- JavaScript truthiness of a field: 0, the empty string and an absent
field are falsy. -/
def JField.truthy : JField → Bool
  | JField.num q => if q = 0 then false else true
  | JField.str s => if s = "" then false else true
  | JField.missing => false

/-- Whether the field holds a number. -/
def JField.isNumeric : JField → Bool
  | JField.num _ => true
  | _ => false

/-- The metadata block of a packet as read by the validator. -/
structure RawMeta where
  timestamp : JField
  sequence_id : JField
deriving DecidableEq

/-- One series group of a packet; each of the four expected named series
is either an array of points (`some`, possibly empty) or not an array
(`none`: absent or of another type). -/
structure RawGroup where
  s1 : Option (List (ℚ × ℚ))
  s2 : Option (List (ℚ × ℚ))
  s3 : Option (List (ℚ × ℚ))
  s4 : Option (List (ℚ × ℚ))
deriving DecidableEq

/-- A received packet: `metadata`, `ppie_group` and `vvie_group` are each
either present (truthy object) or not. -/
structure RawPacket where
  metadata : Option RawMeta
  ppie_group : Option RawGroup
  vvie_group : Option RawGroup
deriving DecidableEq

/-- The `requiredFields.every(field => Array.isArray(group[field]))`
check for one group. -/
def validGroup (g : RawGroup) : Bool :=
  g.s1.isSome && g.s2.isSome && g.s3.isSome && g.s4.isSome

/-- `WebSocketManager.validateRealtimeData`: the packet must carry truthy
`metadata`, `ppie_group` and `vvie_group`; `metadata.timestamp` and
`metadata.sequence_id` must be truthy; each group must have its four
named series as arrays. -/
def validateRealtimeData (d : RawPacket) : Bool :=
  match d.metadata, d.ppie_group, d.vvie_group with
  | some m, some pg, some vg =>
      m.timestamp.truthy && m.sequence_id.truthy && validGroup pg && validGroup vg
  | _, _, _ => false

/-- The acceptance condition as the specification words it: a metadata
block with a numeric timestamp and a numeric sequence id, and every
declared series group containing its four expected named series as
sequences (possibly empty).  Spec-side definition, kept for comparison
with `validateRealtimeData`. -/
def claimAccepts (d : RawPacket) : Bool :=
  match d.metadata, d.ppie_group, d.vvie_group with
  | some m, some pg, some vg =>
      m.timestamp.isNumeric && m.sequence_id.isNumeric && validGroup pg && validGroup vg
  | _, _, _ => false

/-- `WebSocketManager.handleRealtimeData`, reduced to its observable
effects: an invalid packet is logged and dropped (counter unchanged, no
`onData` event); a valid packet increments `receivedDataCount` and fires
`onData` once with the packet. -/
def handleRealtimeData (d : RawPacket) (count : ℕ) : ℕ × List RawPacket :=
  if validateRealtimeData d then (count + 1, [d]) else (count, [])

/-- A concrete packet whose metadata is numeric (timestamp 0, sequence
id 1) and whose groups carry the four expected series as empty arrays. -/
def packetTs0 : RawPacket :=
  ⟨some ⟨JField.num 0, JField.num 1⟩,
    some ⟨some [], some [], some [], some []⟩,
    some ⟨some [], some [], some [], some []⟩⟩

/-!
## Pipeline coordinator, live page
(`Application.handleRealtimeData` in src/frontend/backtest/js/main.js and
`DualGridApplication.handleRealtimeData` in
src/frontend/backtest/js/database.js, feeding
`ChartsManager.updateChartsData` in src/unnamed/part_001)
-/

/-- The four series buffers of one group of `ChartsManager.dataBuffer`. -/
structure GroupBuffers where
  b1 : List (ℚ × ℚ)
  b2 : List (ℚ × ℚ)
  b3 : List (ℚ × ℚ)
  b4 : List (ℚ × ℚ)
deriving DecidableEq

/-- `ChartsManager.updatePPIEData` (and `updateVVIEData`) on the buffer:
for each of the four expected keys, if the incoming value is an array it
is pushed and the buffer trimmed to `maxDataPoints`. -/
def updateGroupBuffers (g : RawGroup) (bufs : GroupBuffers) (maxPts : ℕ) : GroupBuffers :=
  ⟨match g.s1 with | some v => appendLimited bufs.b1 v maxPts | none => bufs.b1,
   match g.s2 with | some v => appendLimited bufs.b2 v maxPts | none => bufs.b2,
   match g.s3 with | some v => appendLimited bufs.b3 v maxPts | none => bufs.b3,
   match g.s4 with | some v => appendLimited bufs.b4 v maxPts | none => bufs.b4⟩

/-- The buffer-relevant state of `ChartsManager`. -/
structure ChartsState where
  isInitialized : Bool
  ppie : GroupBuffers
  vvie : GroupBuffers
  maxDataPoints : ℕ
deriving DecidableEq

/-- `ChartsManager.updateChartsData`: skipped when uninitialised;
otherwise each declared group updates its buffers. -/
def chartsUpdateChartsData (st : ChartsState) (d : RawPacket) : ChartsState :=
  if st.isInitialized = false then st
  else
    let st1 :=
      match d.ppie_group with
      | some g => { st with ppie := updateGroupBuffers g st.ppie st.maxDataPoints }
      | none => st
    match d.vvie_group with
    | some g => { st1 with vvie := updateGroupBuffers g st1.vvie st1.maxDataPoints }
    | none => st1

/-- The application state touched by `Application.handleRealtimeData`:
the received-packet counter, the chart buffers, and the list of packets
handed to the persistence collaborator. -/
structure AppState where
  totalDataReceived : ℕ
  charts : ChartsState
  savedRecords : List RawPacket
deriving DecidableEq

/-- `Application.handleRealtimeData` (the same shape is used by
`DualGridApplication.handleRealtimeData`): when the pause flag is set the
handler returns immediately after validation, touching nothing; otherwise
it bumps the counter, updates the chart buffers, and hands the packet to
the persistence collaborator. -/
def appHandleRealtimeData (paused : Bool) (st : AppState) (d : RawPacket) : AppState :=
  if paused then st
  else
    { totalDataReceived := st.totalDataReceived + 1,
      charts := chartsUpdateChartsData st.charts d,
      savedRecords := st.savedRecords ++ [d] }

/-!
## Pipeline coordinator, dual-grid page (`GridController.updateChartsData`
in src/frontend/backtest/js/dual_grid_controller.js)
-/

/-- The `data.ppie` group of the dual-grid packet shape: four optional
scalar fields (`undefined` checks in the source). -/
structure GridPpie where
  P : Option ℚ
  PIB : Option ℚ
  PSD : Option ℚ
  PEB : Option ℚ
deriving DecidableEq

/-- The `data.vvie` group of the dual-grid packet shape. -/
structure GridVvie where
  V : Option ℚ
  VIB : Option ℚ
  VSD : Option ℚ
  VEB : Option ℚ
deriving DecidableEq

/-- A packet as consumed by `GridController.updateChartsData`;
`timestamp` is `metadata?.timestamp` (`none` when the metadata block or
the field is absent). -/
structure GridPacket where
  ppie : Option GridPpie
  vvie : Option GridVvie
  timestamp : Option ℚ
deriving DecidableEq

/-- The state of `GridController` read and written by
`updateChartsData`. -/
structure GridState where
  isInitialized : Bool
  isUpdating : Bool
  grid1Present : Bool
  grid2Present : Bool
  grid1Visible : Bool
  grid2Visible : Bool
  grid1 : GroupBuffers
  grid2 : GroupBuffers
  maxDataPoints : ℕ
deriving DecidableEq

/-- Conditional push of one `[timestamp, value]` point
(`if (data.X !== undefined) buffer.push([timestamp, data.X])`). -/
def pushOpt (buf : List (ℚ × ℚ)) (ts : ℚ) (v : Option ℚ) : List (ℚ × ℚ) :=
  match v with
  | some x => buf ++ [(ts, x)]
  | none => buf

/-- `GridController.limitDataBuffer` on one grid: every series longer
than `maxDataPoints` is cut to its last `maxDataPoints` points. -/
def limitGroup (g : GroupBuffers) (maxPts : ℕ) : GroupBuffers :=
  ⟨limitOne g.b1 maxPts, limitOne g.b2 maxPts, limitOne g.b3 maxPts, limitOne g.b4 maxPts⟩

/-- `GridController.updateGrid1Data`: push each defined scalar with the
packet timestamp, then trim the grid-1 buffers. -/
def updateGrid1Data (st : GridState) (p : GridPpie) (ts : ℚ) : GridState :=
  { st with grid1 :=
      limitGroup (GroupBuffers.mk (pushOpt st.grid1.b1 ts p.P)
        (pushOpt st.grid1.b2 ts p.PIB) (pushOpt st.grid1.b3 ts p.PSD)
        (pushOpt st.grid1.b4 ts p.PEB)) st.maxDataPoints }

/-- `GridController.updateGrid2Data`: the grid-2 counterpart. -/
def updateGrid2Data (st : GridState) (v : GridVvie) (ts : ℚ) : GridState :=
  { st with grid2 :=
      limitGroup (GroupBuffers.mk (pushOpt st.grid2.b1 ts v.V)
        (pushOpt st.grid2.b2 ts v.VIB) (pushOpt st.grid2.b3 ts v.VSD)
        (pushOpt st.grid2.b4 ts v.VEB)) st.maxDataPoints }

/-- `GridController.validateDataFormat`: the packet must declare at least
one of `ppie`, `vvie`. -/
def validateDataFormat (d : GridPacket) : Bool := d.ppie.isSome || d.vvie.isSome

/-- `GridController.updateChartsData`: dropped (return `false`, no state
change) when uninitialised or when an update is already in flight
(`isUpdating`); otherwise the packet is validated and each declared,
present and visible grid is updated.  `now` stands for `Date.now()`,
used when `metadata?.timestamp` is falsy.  The `isUpdating` flag is set
on entry and cleared in the `finally` block, so the returned state keeps
its original value. -/
def gridUpdateChartsData (st : GridState) (d : GridPacket) (now : ℚ) :
    GridState × Bool :=
  if st.isInitialized = false || st.isUpdating then (st, false)
  else if validateDataFormat d = false then (st, false)
  else
    let ts := match d.timestamp with
      | some t => if t = 0 then now else t
      | none => now
    let st1 :=
      match d.ppie with
      | some p => if st.grid1Present && st.grid1Visible then updateGrid1Data st p ts else st
      | none => st
    let st2 :=
      match d.vvie with
      | some v => if st1.grid2Present && st1.grid2Visible then updateGrid2Data st1 v ts
                  else st1
      | none => st1
    (st2, true)

/-- A `GridController` state with an update cycle in flight
(`isUpdating = true`). -/
def gridStateBusy : GridState :=
  ⟨true, true, true, true, true, true, ⟨[], [], [], []⟩, ⟨[], [], [], []⟩, 1000⟩

/-- A dual-grid packet declaring one PPIE scalar. -/
def gridPacketSample : GridPacket :=
  ⟨some ⟨some 1, none, none, none⟩, none, some 7⟩

/-- The `WSState` reached after exhausting the retry budget: 10 recorded
attempts out of 10, status `failed`. -/
def failedWSState : WSState :=
  ⟨false, false, 10, 10, 1000, 30000, ConnStatus.failed⟩

/-!
## Theorems
-/

/-- A finite number is never the `null` marker. -/
theorem fin_eq_null_iff (q : ℚ) : JSVal.fin q = JSVal.null ↔ False := by
  constructor
  · intro h; cases h
  · intro h; cases h

/-- Symmetric form of `fin_eq_null_iff`. -/
theorem null_eq_fin_iff (q : ℚ) : JSVal.null = JSVal.fin q ↔ False := by
  constructor
  · intro h; cases h
  · intro h; cases h

/-- C1: the stochastic-oscillator code has no division-by-zero guard.
On the flat input highs = lows = closes = [5, 5, 5] with period 3, the
window at index 2 is flat (max high = min low = 5), the code evaluates
`RSV[2] = (0 / 0) * 100 = NaN` instead of the 0 the specification
requires, and the non-finite value propagates into `K[2]`, `D[2]` and
`J[2]`. -/
theorem kdj_flat_window_produces_nan :
    calculateKDJ [5, 5, 5] [5, 5, 5] [5, 5, 5] 3 =
      ⟨[JSVal.null, JSVal.null, JSVal.nan], [JSVal.null, JSVal.null, JSVal.nan],
        [JSVal.null, JSVal.null, JSVal.nan], [JSVal.null, JSVal.null, JSVal.nan]⟩ := by
  norm_num [calculateKDJ, kdjAux, kdjStepRSV, jsMul, jsDiv, jsAdd, jsSub, jsNeg, jsOr50,
    JSVal.truthy, JSVal.toNum, jsMaxList, jsMinList, qmax, qmin]

set_option maxHeartbeats 1000000 in
/-- C2 counterexample: with fast = 2, slow = 3, signal period 3 on the
2-element input [10, 12], `dea[0]` and `dea[1]` are both defined finite
numbers (0 and 1/6) — not undefined as the claim states — because
`calculateEMA` seeds at index 0 regardless of the signal period.
Moreover, on [null, 10, 12] the index-misalignment between `dif` and the
null-filtered `dea` makes `macd[2]` equal `NaN` rather than the undefined
marker the claim requires where `dea` is undefined. -/
theorem macd_dea_defined_counterexample :
    (calculateMACD [JSVal.fin 10, JSVal.fin 12] 2 3 3).dea.get? 0 = some (JSVal.fin 0)
    ∧ (calculateMACD [JSVal.fin 10, JSVal.fin 12] 2 3 3).dea.get? 1
        = some (JSVal.fin (1 / 6))
    ∧ (calculateMACD [JSVal.null, JSVal.fin 10, JSVal.fin 12] 2 3 3).macd.get? 2
        = some JSVal.nan := by
  refine ⟨?_, ?_, ?_⟩ <;>
    norm_num [calculateMACD, calculateEMA, emaAux, mapIdx2, difAt, macdAt, notNull,
      fin_eq_null_iff, null_eq_fin_iff,
      jsMul, jsDiv, jsAdd, jsSub, jsNeg, JSVal.toNum, List.find?, List.filter, List.get?]

/-- C4: the k-th automatic reconnect attempt (k ≥ 1, within the budget)
is scheduled after `min(baseDelay * 2^(k-1), maxDelay)` milliseconds and
reports the `reconnecting` status; with the defaults the first seven
delays are [1000, 2000, 4000, 8000, 16000, 30000, 30000]; and a state
with 10 of 10 attempts used (the 11th consecutive failure) transitions to
`failed` with no retry scheduled. -/
theorem backoff_schedule (s : WSState) (k : ℕ) (hk : 1 ≤ k)
    (hatt : s.reconnectAttempts = k - 1) (hmax : k ≤ s.maxReconnectAttempts) :
    (scheduleReconnect s).2
        = some (min (s.reconnectDelay * 2 ^ (k - 1)) s.maxReconnectDelay)
    ∧ (scheduleReconnect s).1.status = ConnStatus.reconnecting
    ∧ (scheduleReconnect s).1.reconnectAttempts = k
    ∧ ((List.range 7).map (fun n => min (1000 * 2 ^ n) 30000)
        = [1000, 2000, 4000, 8000, 16000, 30000, 30000])
    ∧ (∀ s2 : WSState, s2.reconnectAttempts = 10 → s2.maxReconnectAttempts = 10 →
        (scheduleReconnect s2).1.status = ConnStatus.failed
        ∧ (scheduleReconnect s2).2 = none) := by
  have hlt : ¬ s.maxReconnectAttempts ≤ k - 1 := by omega
  refine ⟨?_, ?_, ?_, by decide, ?_⟩
  · simp [scheduleReconnect, hatt, hlt]
  · simp [scheduleReconnect, hatt, hlt]
  · simp [scheduleReconnect, hatt, hlt]; omega
  · intro s2 h1 h2
    constructor
    · simp [scheduleReconnect, h1, h2]
    · simp [scheduleReconnect, h1, h2]

/-- C4 witness: the first automatic reconnect attempt from the default
configuration is scheduled after 1000 ms. -/
theorem backoff_schedule_witness :
    (scheduleReconnect defaultWSState).2 = some 1000
    ∧ (scheduleReconnect defaultWSState).1.status = ConnStatus.reconnecting := by
  refine ⟨?_, (backoff_schedule defaultWSState 1 (by decide) (by decide) (by decide)).2.1⟩
  exact ((backoff_schedule defaultWSState 1 (by decide) (by decide) (by decide)).1).trans
    (by decide)

/-- C5 counterexample: `failedWSState` is the state actually reached
after 11 consecutive transport failures from the default configuration
(10 attempts used, status `failed`).  An explicit `connect()` from it
leaves `reconnectAttempts` at 10 — it does not reset the counter to 0 —
and if the transport attempt fails again, `scheduleReconnect` immediately
reports `failed` with no retry: no fresh budget exists. -/
theorem connect_no_reset_counterexample :
    (fun s => (onConnectError s).1)^[11] defaultWSState = failedWSState
    ∧ (wsConnect failedWSState).reconnectAttempts = 10
    ∧ ¬ (wsConnect failedWSState).reconnectAttempts = 0
    ∧ (onConnectError (wsConnect failedWSState)).1.status = ConnStatus.failed
    ∧ (onConnectError (wsConnect failedWSState)).2 = none := by
  decide

/-- C5 amended: `connect()` never changes the retry counter; the counter
is reset to 0 by the transport-success handler (`socket connect event`),
so the fresh budget of `maxAttempts` retries becomes available only once
a manual reconnect succeeds; while the budget is exhausted,
`scheduleReconnect` keeps reporting `failed` and schedules nothing. -/
theorem connect_reset_amended (s : WSState) :
    (wsConnect s).reconnectAttempts = s.reconnectAttempts
    ∧ (onConnectSuccess s).reconnectAttempts = 0
    ∧ (s.maxReconnectAttempts ≤ s.reconnectAttempts →
        (scheduleReconnect s).1.status = ConnStatus.failed
        ∧ (scheduleReconnect s).2 = none) := by
  refine ⟨?_, rfl, fun h => ⟨?_, ?_⟩⟩
  · unfold wsConnect; split <;> rfl
  · simp [scheduleReconnect, h]
  · simp [scheduleReconnect, h]

/-- C5 amended witness: instantiated at the exhausted state. -/
theorem connect_reset_amended_witness :
    (wsConnect failedWSState).reconnectAttempts = failedWSState.reconnectAttempts
    ∧ (scheduleReconnect failedWSState).1.status = ConnStatus.failed := by
  exact ⟨(connect_reset_amended failedWSState).1,
    ((connect_reset_amended failedWSState).2.2 (by decide)).1⟩

/-- C8: while the pause flag is set, processing any number of packets
through `handleRealtimeData` leaves the application state — counter,
every chart series buffer, and the records handed to persistence —
exactly at its pre-pause snapshot; and because paused packets are dropped
rather than queued, unpausing and replaying the same packets yields the
same end state as if the pause had never been set. -/
theorem pause_short_circuit (st : AppState) (packets : List RawPacket) :
    packets.foldl (appHandleRealtimeData true) st = st
    ∧ packets.foldl (appHandleRealtimeData false)
        (packets.foldl (appHandleRealtimeData true) st)
      = packets.foldl (appHandleRealtimeData false) st := by
  have h1 : ∀ (l : List RawPacket) (s : AppState),
      l.foldl (appHandleRealtimeData true) s = s := by
    intro l
    induction l with
    | nil => intro s; rfl
    | cons d rest ih => intro s; simpa [appHandleRealtimeData] using ih s
  exact ⟨h1 packets st, by rw [h1 packets st]⟩

/-- C9: an update request arriving at `GridController.updateChartsData`
while a cycle is in flight (`isUpdating = true`) is dropped: the call
returns `false` and the controller state — including every series buffer
— is unchanged; nothing is queued for replay. -/
theorem reentrancy_guard_drops (st : GridState) (d : GridPacket) (now : ℚ)
    (h : st.isUpdating = true) :
    gridUpdateChartsData st d now = (st, false) := by
  simp [gridUpdateChartsData, h]

/-- C9 witness: a concrete busy controller drops a concrete packet. -/
theorem reentrancy_guard_drops_witness :
    gridUpdateChartsData gridStateBusy gridPacketSample 0 = (gridStateBusy, false) := by
  exact reentrancy_guard_drops gridStateBusy gridPacketSample 0 rfl

/-- C6 counterexample: the validator tests truthiness, not numeric type.
`packetTs0` satisfies the claimed acceptance condition — its timestamp
(0) and sequence id (1) are numbers and every declared series is an
array — yet `validateRealtimeData` rejects it because `!metadata.timestamp`
is true for the number 0, so no `data` event fires for it. -/
theorem validate_numeric_counterexample :
    claimAccepts packetTs0 = true
    ∧ validateRealtimeData packetTs0 = false
    ∧ handleRealtimeData packetTs0 5 = (5, []) := by
  refine ⟨rfl, ?_, ?_⟩ <;>
    norm_num [validateRealtimeData, handleRealtimeData, packetTs0, JField.truthy,
      validGroup]

/-- C6 amended: a packet is accepted if and only if its metadata,
`ppie_group` and `vvie_group` blocks are present, `metadata.timestamp`
and `metadata.sequence_id` are truthy (a nonzero number or a nonempty
string — not merely numeric), and each group holds its four expected
named series as arrays (possibly empty); every rejected packet is dropped
silently — the counter is untouched and no `data` event fires — while an
accepted packet fires exactly one `data` event. -/
theorem validate_truthy_amended (d : RawPacket) :
    (validateRealtimeData d = true ↔
      ∃ m pg vg, d.metadata = some m ∧ d.ppie_group = some pg ∧ d.vvie_group = some vg
        ∧ m.timestamp.truthy = true ∧ m.sequence_id.truthy = true
        ∧ validGroup pg = true ∧ validGroup vg = true)
    ∧ (∀ c, validateRealtimeData d = false → handleRealtimeData d c = (c, []))
    ∧ (∀ c, validateRealtimeData d = true → handleRealtimeData d c = (c + 1, [d])) := by
  refine ⟨?_, ?_, ?_⟩
  · rcases d with ⟨m, pg, vg⟩
    cases m <;> cases pg <;> cases vg <;>
      simp [validateRealtimeData, Bool.and_eq_true, and_assoc]
  · intro c h; simp [handleRealtimeData, h]
  · intro c h; simp [handleRealtimeData, h]

/-- C6 amended witness: the truthy-timestamp-0 packet is dropped with the
counter untouched. -/
theorem validate_truthy_amended_witness :
    validateRealtimeData packetTs0 = false
    ∧ handleRealtimeData packetTs0 5 = (5, []) := by
  have h : validateRealtimeData packetTs0 = false := by
    norm_num [validateRealtimeData, packetTs0, JField.truthy, validGroup]
  exact ⟨h, (validate_truthy_amended packetTs0).2.1 5 h⟩

/-- Dropping past the prefix of an append: positions at or beyond the
length of the left part index into the right part. -/
theorem drop_append_aux {α : Type} :
    ∀ (xs ys : List α) (k : ℕ), (xs ++ ys).drop (xs.length + k) = ys.drop k := by
  intro xs
  induction xs with
  | nil => intro ys k; simp
  | cons x rest ih =>
      intro ys k
      have harith : (x :: rest).length + k = (rest.length + k) + 1 := by
        simp [List.length_cons]; omega
      rw [harith, List.cons_append, List.drop_succ_cons, ih]

/-- With a positive capacity, `appendLimited` is exactly append followed
by keeping the last `C` elements. -/
theorem appendLimited_eq_drop {α : Type} (b n : List α) (C : ℕ) (hC : 0 < C) :
    appendLimited b n C = (b ++ n).drop ((b ++ n).length - C) := by
  unfold appendLimited limitOne
  rcases Nat.lt_or_ge C (b ++ n).length with h | h
  · rw [if_pos h, if_neg (by omega)]
  · rw [if_neg (by omega)]
    have h0 : (b ++ n).length - C = 0 := by omega
    rw [h0, List.drop_zero]

/-- Trimming a buffer that is already a last-`C` suffix and appending more
points reaches the same state as appending to the untrimmed history and
trimming once. -/
theorem suffix_append_drop {α : Type} (b pts : List α) (C : ℕ) :
    (b.drop (b.length - C) ++ pts).drop ((b.drop (b.length - C) ++ pts).length - C)
      = (b ++ pts).drop ((b ++ pts).length - C) := by
  rcases le_or_lt b.length C with h | h
  · have h0 : b.length - C = 0 := by omega
    rw [h0, List.drop_zero]
  · have key : b ++ pts
        = b.take (b.length - C) ++ (b.drop (b.length - C) ++ pts) := by
      rw [← List.append_assoc, List.take_append_drop]
    rw [key]
    have harith : (b.take (b.length - C) ++ (b.drop (b.length - C) ++ pts)).length - C
        = (b.take (b.length - C)).length
          + ((b.drop (b.length - C) ++ pts).length - C) := by
      simp only [List.length_append, List.length_take, List.length_drop]
      omega
    rw [harith, drop_append_aux]

/-- Folding `appendLimited` over a batch list, started from any last-`C`
suffix, yields the last-`C` suffix of the full concatenated history. -/
theorem foldl_appendLimited {α : Type} (C : ℕ) (hC : 0 < C) :
    ∀ (batches : List (List α)) (b : List α),
      batches.foldl (fun acc pts => appendLimited acc pts C) (b.drop (b.length - C))
        = (b ++ batches.flatten).drop ((b ++ batches.flatten).length - C) := by
  intro batches
  induction batches with
  | nil => intro b; simp
  | cons pts rest ih =>
      intro b
      rw [List.foldl_cons, appendLimited_eq_drop _ _ _ hC, suffix_append_drop,
        ← appendLimited_eq_drop _ _ _ hC]
      have hstep : appendLimited b pts C = (b ++ pts).drop ((b ++ pts).length - C) :=
        appendLimited_eq_drop _ _ _ hC
      rw [hstep, ih (b ++ pts)]
      simp [List.append_assoc]

/-- C3: a series buffer of positive capacity `C` fed any sequence of
batches holds exactly the last `C` points of the concatenated arrival
history, in arrival order; its length is `min(total, C)`, equals `C`
exactly once more than `C` points have arrived, and never exceeds `C`
after any prefix of the appends.  (The operations are total functions:
a full buffer is trimmed, never an error.) -/
theorem buffer_eviction {α : Type} (batches : List (List α)) (C : ℕ) (hC : 0 < C) :
    batches.foldl (fun acc pts => appendLimited acc pts C) []
        = batches.flatten.drop (batches.flatten.length - C)
    ∧ (batches.foldl (fun acc pts => appendLimited acc pts C) []).length
        = min batches.flatten.length C
    ∧ (C < batches.flatten.length →
        (batches.foldl (fun acc pts => appendLimited acc pts C) []).length = C)
    ∧ (∀ m, ((batches.take m).foldl (fun acc pts => appendLimited acc pts C) []).length
        ≤ C) := by
  have main : ∀ (bs : List (List α)),
      bs.foldl (fun acc pts => appendLimited acc pts C) []
        = bs.flatten.drop (bs.flatten.length - C) := by
    intro bs
    have h := foldl_appendLimited C hC bs []
    simpa using h
  refine ⟨main batches, ?_, ?_, ?_⟩
  · rw [main batches, List.length_drop]; omega
  · intro hbig; rw [main batches, List.length_drop]; omega
  · intro m; rw [main (batches.take m), List.length_drop]; omega

/-- C3 witness: capacity 5, seven single-point batches timestamped 1..7;
the buffer retains [3, 4, 5, 6, 7]. -/
theorem buffer_eviction_witness :
    ([[1], [2], [3], [4], [5], [6], [7]] : List (List ℕ)).foldl
        (fun acc pts => appendLimited acc pts 5) [] = [3, 4, 5, 6, 7]
    ∧ (([[1], [2], [3], [4], [5], [6], [7]] : List (List ℕ)).foldl
        (fun acc pts => appendLimited acc pts 5) []).length = 5 := by
  constructor
  · exact ((buffer_eviction [[1], [2], [3], [4], [5], [6], [7]] 5 (by decide)).1).trans
      (by decide)
  · exact ((buffer_eviction [[1], [2], [3], [4], [5], [6], [7]] 5 (by decide)).2.2.1
      (by decide))

/-- On an all-numeric tail, `emaAux` computes the pure rational
recurrence `emaScan`. -/
theorem emaAux_map_fin (m : ℚ) :
    ∀ (qs : List ℚ) (e : ℚ),
      emaAux m (qs.map JSVal.fin) (JSVal.fin e) = (emaScan m qs e).map JSVal.fin := by
  intro qs
  induction qs with
  | nil => intro e; rfl
  | cons x rest ih =>
      intro e
      simp [emaAux, emaScan, jsAdd, jsMul, JSVal.toNum, ih]

/-- `emaScan` preserves length. -/
theorem length_emaScan (m : ℚ) :
    ∀ (qs : List ℚ) (e : ℚ), (emaScan m qs e).length = qs.length := by
  intro qs
  induction qs with
  | nil => intro e; rfl
  | cons x rest ih => intro e; simp [emaScan, ih]

/-- Consecutive elements of `emaScan` satisfy the EMA recurrence. -/
theorem emaScan_get_succ (m : ℚ) :
    ∀ (qs : List ℚ) (prev : ℚ) (n : ℕ) (x : ℚ),
      (emaScan m qs prev).get? n = some x →
      (emaScan m qs prev).get? (n + 1)
        = (qs.get? (n + 1)).map (fun q => q * m + x * (1 - m)) := by
  intro qs
  induction qs with
  | nil => intro prev n x h; simp [emaScan] at h
  | cons q rest ih =>
      intro prev n x h
      cases n with
      | zero =>
          simp [emaScan] at h
          cases rest with
          | nil => simp [emaScan]
          | cons q2 rest2 => simp [emaScan, ← h]
      | succ k =>
          simp only [emaScan, List.get?_cons_succ] at h ⊢
          exact ih _ k x h

/-- C7: on any non-empty all-numeric input, `calculateEMA` with period
`p` uses the multiplier `2 / (p + 1)`, its first output is the first
input, each subsequent output is `input * α + previous * (1 - α)`, no
output index inside the input is null, and on [10, 12, 11, 13, 15] with
period 3 it returns [10, 11, 11, 12, 13.5]. -/
theorem ema_correct (qs : List ℚ) (p : ℕ) (h : qs ≠ []) :
    (calculateEMA (qs.map JSVal.fin) p).get? 0 = (qs.get? 0).map JSVal.fin
    ∧ (∀ n e, (calculateEMA (qs.map JSVal.fin) p).get? n = some (JSVal.fin e) →
        (calculateEMA (qs.map JSVal.fin) p).get? (n + 1)
          = (qs.get? (n + 1)).map (fun q =>
              JSVal.fin (q * (2 / ((p : ℚ) + 1)) + e * (1 - 2 / ((p : ℚ) + 1)))))
    ∧ (∀ n, n < qs.length →
        ∃ e : ℚ, (calculateEMA (qs.map JSVal.fin) p).get? n = some (JSVal.fin e))
    ∧ calculateEMA ([10, 12, 11, 13, 15].map JSVal.fin) 3
        = [JSVal.fin 10, JSVal.fin 11, JSVal.fin 11, JSVal.fin 12,
            JSVal.fin (27 / 2)] := by
  obtain ⟨q0, rest, rfl⟩ : ∃ q0 rest, qs = q0 :: rest := by
    cases qs with
    | nil => exact absurd rfl h
    | cons a l => exact ⟨a, l, rfl⟩
  have hout : calculateEMA ((q0 :: rest).map JSVal.fin) p
      = JSVal.fin q0 :: (emaScan (2 / ((p : ℚ) + 1)) rest q0).map JSVal.fin := by
    simp [calculateEMA, emaAux_map_fin]
  refine ⟨?_, ?_, ?_, ?_⟩
  · rw [hout]; rfl
  · intro n e he
    cases n with
    | zero =>
        rw [hout] at he
        simp at he
        rw [hout]
        cases rest with
        | nil => simp [emaScan]
        | cons q1 r2 => simp [emaScan, ← he]
    | succ k =>
        rw [hout] at he ⊢
        simp only [List.get?_cons_succ, List.get?_map] at he ⊢
        rcases hk : (emaScan (2 / ((p : ℚ) + 1)) rest q0).get? k with _ | y
        · rw [hk] at he; cases he
        · rw [hk] at he
          simp at he
          have he2 : (emaScan (2 / ((p : ℚ) + 1)) rest q0).get? k = some e := by
            rw [hk, he]
          rw [emaScan_get_succ _ _ _ _ _ he2]
          rcases rest.get? (k + 1) with _ | q <;> simp
  · intro n hn
    cases n with
    | zero => exact ⟨q0, by rw [hout]; rfl⟩
    | succ k =>
        have hk : k < (emaScan (2 / ((p : ℚ) + 1)) rest q0).length := by
          rw [length_emaScan]
          simpa using hn
        obtain ⟨y, hy⟩ : ∃ y, (emaScan (2 / ((p : ℚ) + 1)) rest q0).get? k = some y :=
          ⟨_, List.get?_eq_get hk⟩
        refine ⟨y, ?_⟩
        rw [hout]
        simp only [List.get?_cons_succ, List.get?_map, hy]
        rfl
  · norm_num [calculateEMA, emaAux, jsAdd, jsMul, JSVal.toNum]

/-- C7 witness: instantiated at the specification example input. -/
theorem ema_correct_witness :
    (calculateEMA (([10, 12, 11, 13, 15] : List ℚ).map JSVal.fin) 3).get? 0
      = (([10, 12, 11, 13, 15] : List ℚ).get? 0).map JSVal.fin := by
  exact (ema_correct [10, 12, 11, 13, 15] 3 (by simp)).1

/-- Consecutive outputs of the KDJ loop: past the warm-up, the value at
position `n + 1` is computed from the pushed value at position `n`
through the `|| 50` coalescing, for both the K and the D sequence. -/
theorem kdjAux_consec (highs lows : List ℚ) (period : ℕ) :
    ∀ (cs : List ℚ) (i : ℕ) (pK pD : JSVal) (n : ℕ),
      period ≤ i + n + 1 → n + 1 < cs.length →
      ((kdjAux highs lows period cs i pK pD).k.getD (n + 1) JSVal.null
          = jsDiv (jsAdd (jsMul (JSVal.fin 2)
              (jsOr50 ((kdjAux highs lows period cs i pK pD).k.getD n JSVal.null)))
              ((kdjAux highs lows period cs i pK pD).rsv.getD (n + 1) JSVal.null))
            (JSVal.fin 3))
      ∧ ((kdjAux highs lows period cs i pK pD).d.getD (n + 1) JSVal.null
          = jsDiv (jsAdd (jsMul (JSVal.fin 2)
              (jsOr50 ((kdjAux highs lows period cs i pK pD).d.getD n JSVal.null)))
              ((kdjAux highs lows period cs i pK pD).k.getD (n + 1) JSVal.null))
            (JSVal.fin 3)) := by
  intro cs
  induction cs with
  | nil => intro i pK pD n hp hl; simp at hl
  | cons c rest ih =>
      intro i pK pD n hp hl
      cases n with
      | zero =>
          have h1 : ¬ (i + 1 < period) := by omega
          cases rest with
          | nil => simp at hl
          | cons c2 rest2 =>
              have h2 : ¬ (i + 1 + 1 < period) := by omega
              constructor <;> simp [kdjAux, h1, h2]
      | succ kk =>
          have hl2 : kk + 1 < rest.length := by simpa using hl
          have hp2 : period ≤ (i + 1) + kk + 1 := by omega
          by_cases h1 : i + 1 < period
          · have hrec := ih (i + 1) JSVal.null JSVal.null kk hp2 hl2
            simpa [kdjAux, h1] using hrec
          · have hrec := ih (i + 1)
              (jsDiv (jsAdd (jsMul (JSVal.fin 2) (jsOr50 pK))
                (kdjStepRSV highs lows period i c)) (JSVal.fin 3))
              (jsDiv (jsAdd (jsMul (JSVal.fin 2) (jsOr50 pD))
                (jsDiv (jsAdd (jsMul (JSVal.fin 2) (jsOr50 pK))
                  (kdjStepRSV highs lows period i c)) (JSVal.fin 3))) (JSVal.fin 3))
              kk hp2 hl2
            simpa [kdjAux, h1] using hrec

/-- C10: `calculateKDJ` reads the previous K and D values through the
falsy-coalescing `k[i-1] || 50` / `d[i-1] || 50`.  When the previous
value is a nonzero finite number the textbook recurrences
`K[i] = (2 K[i-1] + RSV[i]) / 3` and `D[i] = (2 D[i-1] + K[i]) / 3` hold
exactly; when the previous value is exactly 0, the seed 50 is substituted
in its place, so the recurrences hold only under the hypothesis that no
prior K or D value is exactly zero. -/
theorem kdj_prev_coalescing (highs lows closes : List ℚ) (period n : ℕ) (q p r : ℚ)
    (hlen : n + 1 < closes.length) (hper : period ≤ n + 1)
    (hk : (calculateKDJ highs lows closes period).k.getD n JSVal.null = JSVal.fin q)
    (hd : (calculateKDJ highs lows closes period).d.getD n JSVal.null = JSVal.fin p)
    (hrsv : (calculateKDJ highs lows closes period).rsv.getD (n + 1) JSVal.null
      = JSVal.fin r) :
    (q ≠ 0 → (calculateKDJ highs lows closes period).k.getD (n + 1) JSVal.null
        = JSVal.fin ((2 * q + r) / 3))
    ∧ (q = 0 → (calculateKDJ highs lows closes period).k.getD (n + 1) JSVal.null
        = JSVal.fin ((2 * 50 + r) / 3))
    ∧ (∀ s : ℚ, (calculateKDJ highs lows closes period).k.getD (n + 1) JSVal.null
          = JSVal.fin s → p ≠ 0 →
        (calculateKDJ highs lows closes period).d.getD (n + 1) JSVal.null
          = JSVal.fin ((2 * p + s) / 3))
    ∧ (∀ s : ℚ, (calculateKDJ highs lows closes period).k.getD (n + 1) JSVal.null
          = JSVal.fin s → p = 0 →
        (calculateKDJ highs lows closes period).d.getD (n + 1) JSVal.null
          = JSVal.fin ((2 * 50 + s) / 3)) := by
  have H := kdjAux_consec highs lows period closes 0 JSVal.null JSVal.null n
    (by omega) hlen
  simp only [calculateKDJ] at hk hd hrsv
  refine ⟨?_, ?_, ?_, ?_⟩
  · intro hq
    simp only [calculateKDJ]
    rw [H.1, hk, hrsv]
    norm_num [jsOr50, JSVal.truthy, jsMul, jsAdd, jsDiv, JSVal.toNum, hq]
  · intro hq
    simp only [calculateKDJ]
    rw [H.1, hk, hrsv, hq]
    norm_num [jsOr50, JSVal.truthy, jsMul, jsAdd, jsDiv, JSVal.toNum]
  · intro s hs hp
    simp only [calculateKDJ] at hs ⊢
    rw [H.2, hd, hs]
    norm_num [jsOr50, JSVal.truthy, jsMul, jsAdd, jsDiv, JSVal.toNum, hp]
  · intro s hs hp
    simp only [calculateKDJ] at hs ⊢
    rw [H.2, hd, hs, hp]
    norm_num [jsOr50, JSVal.truthy, jsMul, jsAdd, jsDiv, JSVal.toNum]

/-- C10 witness: period 1 on highs [10, 20], lows [0, 0],
closes [10, 20]: K[0] = 200/3 is nonzero, RSV[1] = 100, and K[1] is
exactly (2 * (200/3) + 100) / 3. -/
theorem kdj_prev_coalescing_witness :
    (calculateKDJ [10, 20] [0, 0] [10, 20] 1).k.getD 1 JSVal.null
      = JSVal.fin ((2 * (200 / 3) + 100) / 3) := by
  exact (kdj_prev_coalescing [10, 20] [0, 0] [10, 20] 1 0 (200 / 3) (500 / 9) 100
    (by norm_num)
    (by norm_num)
    (by norm_num [calculateKDJ, kdjAux, kdjStepRSV, jsMul, jsDiv, jsAdd, jsSub, jsNeg,
      jsOr50, JSVal.truthy, JSVal.toNum, jsMaxList, jsMinList, qmax, qmin])
    (by norm_num [calculateKDJ, kdjAux, kdjStepRSV, jsMul, jsDiv, jsAdd, jsSub, jsNeg,
      jsOr50, JSVal.truthy, JSVal.toNum, jsMaxList, jsMinList, qmax, qmin])
    (by norm_num [calculateKDJ, kdjAux, kdjStepRSV, jsMul, jsDiv, jsAdd, jsSub, jsNeg,
      jsOr50, JSVal.truthy, JSVal.toNum, jsMaxList, jsMinList, qmax, qmin])).1
    (by norm_num)

/-- Indexing into the index-aware map. -/
theorem mapIdx2_get (f : ℕ → JSVal → JSVal) :
    ∀ (l : List JSVal) (i n : ℕ),
      (mapIdx2 f i l).get? n = (l.get? n).map (fun v => f (i + n) v) := by
  intro l
  induction l with
  | nil => intro i n; simp [mapIdx2]
  | cons v rest ih =>
      intro i n
      cases n with
      | zero => simp [mapIdx2]
      | succ k =>
          have harith : i + 1 + k = i + (k + 1) := by omega
          simp only [mapIdx2, List.get?_cons_succ]
          rw [ih (i + 1) k, harith]

/-- `emaAux` preserves length. -/
theorem length_emaAux (m : ℚ) :
    ∀ (l : List JSVal) (e : JSVal), (emaAux m l e).length = l.length := by
  intro l
  induction l with
  | nil => intro e; rfl
  | cons v rest ih => intro e; cases v <;> simp [emaAux, ih]

/-- `calculateEMA` preserves length. -/
theorem length_calculateEMA (prices : List JSVal) (p : ℕ) :
    (calculateEMA prices p).length = prices.length := by
  cases prices with
  | nil => rfl
  | cons v rest => cases v <;> simp [calculateEMA, length_emaAux]

/-- A null on the left makes a `dif` entry null. -/
theorem difAt_null_left (e26 : List JSVal) (j : ℕ) :
    difAt e26 j JSVal.null = JSVal.null := by
  simp [difAt]

/-- A null read from the slow EMA makes a `dif` entry null. -/
theorem difAt_null_right (e26 : List JSVal) (j : ℕ) (v : JSVal)
    (h : e26.get? j = some JSVal.null) : difAt e26 j v = JSVal.null := by
  unfold difAt
  split
  · rfl
  · rw [h]

/-- A null `dif` entry makes the histogram entry null. -/
theorem macdAt_null (dea : List JSVal) (j : ℕ) :
    macdAt dea j JSVal.null = JSVal.null := by
  simp [macdAt]

set_option maxHeartbeats 1000000 in
/-- C2 amended: with fast = 2, slow = 3 and signal period 3 on the
2-element input [10, 12], `dif[0]` is defined — and so are `dea[0]` and
`dea[1]` (0 and 1/6), because `calculateEMA` seeds at index 0 with no
warm-up regardless of the signal period.  In general an index at which
either source EMA is null yields a null MACD histogram value; but at an
index beyond the length of the null-filtered `dea` (the misalignment
case) the histogram value is `NaN`, not the undefined marker. -/
theorem macd_warmup_amended :
    (calculateMACD [JSVal.fin 10, JSVal.fin 12] 2 3 3).dif.get? 0 = some (JSVal.fin 0)
    ∧ (calculateMACD [JSVal.fin 10, JSVal.fin 12] 2 3 3).dea.get? 0 = some (JSVal.fin 0)
    ∧ (calculateMACD [JSVal.fin 10, JSVal.fin 12] 2 3 3).dea.get? 1
        = some (JSVal.fin (1 / 6))
    ∧ (∀ (prices : List JSVal) (fast slow signal n : ℕ),
        ((calculateEMA prices fast).get? n = some JSVal.null
          ∨ (calculateEMA prices slow).get? n = some JSVal.null) →
        (calculateMACD prices fast slow signal).macd.get? n = some JSVal.null)
    ∧ (calculateMACD [JSVal.null, JSVal.fin 10, JSVal.fin 12] 2 3 3).macd.get? 2
        = some JSVal.nan := by
  refine ⟨?_, ?_, ?_, ?_, ?_⟩
  · norm_num [calculateMACD, calculateEMA, emaAux, mapIdx2, difAt, notNull,
      fin_eq_null_iff, null_eq_fin_iff,
      jsMul, jsDiv, jsAdd, jsSub, jsNeg, JSVal.toNum, List.find?, List.filter, List.get?]
  · norm_num [calculateMACD, calculateEMA, emaAux, mapIdx2, difAt, notNull,
      fin_eq_null_iff, null_eq_fin_iff,
      jsMul, jsDiv, jsAdd, jsSub, jsNeg, JSVal.toNum, List.find?, List.filter, List.get?]
  · norm_num [calculateMACD, calculateEMA, emaAux, mapIdx2, difAt, notNull,
      fin_eq_null_iff, null_eq_fin_iff,
      jsMul, jsDiv, jsAdd, jsSub, jsNeg, JSVal.toNum, List.find?, List.filter, List.get?]
  · intro prices fast slow signal n h
    have hdif : (mapIdx2 (difAt (calculateEMA prices slow)) 0
        (calculateEMA prices fast)).get? n = some JSVal.null := by
      rcases h with h | h
      · rw [mapIdx2_get, h]
        simp [difAt_null_left]
      · have hn : n < (calculateEMA prices fast).length := by
          obtain ⟨hlt, _⟩ := List.get?_eq_some.mp h
          rw [length_calculateEMA]
          rw [length_calculateEMA] at hlt
          exact hlt
        obtain ⟨v, hv⟩ : ∃ v, (calculateEMA prices fast).get? n = some v :=
          ⟨_, List.get?_eq_get hn⟩
        rw [mapIdx2_get, hv]
        simp [difAt_null_right _ _ _ (by simpa using h)]
    simp only [calculateMACD]
    rw [mapIdx2_get, hdif]
    simp [macdAt_null]
  · norm_num [calculateMACD, calculateEMA, emaAux, mapIdx2, difAt, macdAt, notNull,
      fin_eq_null_iff, null_eq_fin_iff,
      jsMul, jsDiv, jsAdd, jsSub, jsNeg, JSVal.toNum, List.find?, List.filter, List.get?]

/-- C2 amended witness: a null price at index 0 gives a null fast EMA and
a null histogram value at index 0. -/
theorem macd_warmup_amended_witness :
    (calculateEMA [JSVal.null, JSVal.fin 10] 2).get? 0 = some JSVal.null
    ∧ (calculateMACD [JSVal.null, JSVal.fin 10] 2 3 3).macd.get? 0
        = some JSVal.null := by
  have h : (calculateEMA [JSVal.null, JSVal.fin 10] 2).get? 0 = some JSVal.null := by
    norm_num [calculateEMA, emaAux, List.get?]
  exact ⟨h, macd_warmup_amended.2.2.2.1 [JSVal.null, JSVal.fin 10] 2 3 3 0 (Or.inl h)⟩
